import Mathlib

/-!
Verification development for the `tftp` crate: a shallow embedding of the
wire-level packet codec (`src/packet/*`, `src/bytes.rs`) and of the
per-transfer connection state machine (`src/connection.rs`), together with
models of the client handshake (`src/client.rs`) and the server dispatch
(`src/server.rs`).

Modelling conventions:
* byte buffers are `List Nat` (each element a byte, `< 256` on real wires);
* Rust `u16` values are `Nat` carrying an implicit `< 65536` invariant;
* Rust `String` values are their UTF-8 byte lists (`List Nat`); the Rust
  type invariant "valid UTF-8" becomes an explicit hypothesis where needed;
* fallible Rust code returns `DResult`, whose `panic` constructor records
  that the Rust code would panic (e.g. `slice::split_at` out of bounds,
  `copy_from_slice` length mismatch) rather than return;
* socket receives are driven by a script (a list of receive outcomes),
  socket sends always succeed and are accumulated into a trace of the raw
  byte buffers sent, matching a UDP socket whose `send` does not fail.
-/

namespace Tftp

/-- The subset of `std::io::ErrorKind` used by the crate. -/
inductive ErrorKind where
  | notFound
  | permissionDenied
  | alreadyExists
  | wouldBlock
  | timedOut
  | invalidInput
  | invalidData
  | addrNotAvailable
  | other
  deriving DecidableEq, Repr

/-- A `std::io::Error`: a kind plus its diagnostic message (as bytes). -/
structure IoErr where
  kind : ErrorKind
  msg : List Nat
  deriving DecidableEq, Repr

/-- The outcome of a fallible Rust computation: `Ok`, `Err`, or a panic. -/
inductive DResult (α : Type) where
  | ok (val : α)
  | err (e : IoErr)
  | panic
  deriving DecidableEq, Repr

end Tftp

namespace Tftp

/-- `ErrorKind::into()`: an `io::Error` made from a bare kind. -/
def kindErr (k : ErrorKind) : IoErr := ⟨k, []⟩

/-- ASCII bytes of a Lean string literal (used for the crate's messages). -/
def strBytes (s : String) : List Nat := s.data.map Char.toNat

/-- `Bytes::<u16>::into_bytes` (src/bytes.rs): big-endian encoding of a u16. -/
def bytesU16IntoBytes (v : Nat) : List Nat := [v / 256 % 256, v % 256]

/-- `Bytes::<u16>::from_bytes` (src/bytes.rs): rejects buffers longer than
2 bytes with `InvalidInput`; then `copy_from_slice` into a 2-byte array
panics unless the buffer is exactly 2 bytes. -/
def bytesU16FromBytes (bytes : List Nat) : DResult Nat :=
  if bytes.length > 2 then .err (kindErr .invalidInput)
  else
    match bytes with
    | [hi, lo] => .ok (hi * 256 + lo)
    | _ => .panic

/-- `FirstNul::first_nul_idx` (src/bytes.rs): index of the first NUL byte. -/
def firstNulIdx : List Nat → Option Nat
  | [] => none
  | b :: rest => if b = 0 then some 0 else (firstNulIdx rest).map (· + 1)

/-- `CStr::from_bytes_with_nul`: the buffer must be non-empty, end with NUL
and contain no interior NUL; the result drops the final NUL. -/
def cstrFromBytesWithNul (bytes : List Nat) : DResult (List Nat) :=
  match firstNulIdx bytes with
  | none => .err (kindErr .invalidInput)
  | some i =>
      if i + 1 = bytes.length then .ok (bytes.take i)
      else .err (kindErr .invalidInput)

/-- Strict UTF-8 validity of a byte list, as checked by `str::from_utf8`
(and hence by `CStr::to_str`). -/
def validUtf8 : List Nat → Bool
  | [] => true
  | b :: rest =>
    if b < 0x80 then validUtf8 rest
    else if 0xC2 ≤ b ∧ b ≤ 0xDF then
      match rest with
      | c1 :: rest1 => 0x80 ≤ c1 && c1 ≤ 0xBF && validUtf8 rest1
      | _ => false
    else if 0xE0 ≤ b ∧ b ≤ 0xEF then
      match rest with
      | c1 :: c2 :: rest2 =>
          (if b = 0xE0 then 0xA0 ≤ c1 && c1 ≤ 0xBF
           else if b = 0xED then 0x80 ≤ c1 && c1 ≤ 0x9F
           else 0x80 ≤ c1 && c1 ≤ 0xBF)
          && (0x80 ≤ c2 && c2 ≤ 0xBF) && validUtf8 rest2
      | _ => false
    else if 0xF0 ≤ b ∧ b ≤ 0xF4 then
      match rest with
      | c1 :: c2 :: c3 :: rest3 =>
          (if b = 0xF0 then 0x90 ≤ c1 && c1 ≤ 0xBF
           else if b = 0xF4 then 0x80 ≤ c1 && c1 ≤ 0x8F
           else 0x80 ≤ c1 && c1 ≤ 0xBF)
          && (0x80 ≤ c2 && c2 ≤ 0xBF) && (0x80 ≤ c3 && c3 ≤ 0xBF)
          && validUtf8 rest3
      | _ => false
    else false

/-- `Bytes::<String>::from_bytes` (src/bytes.rs): `CStr::from_bytes_with_nul`
followed by the UTF-8 check of `CStr::to_str`; both failures are mapped to
`InvalidInput`. The resulting Rust `String` is modelled by its bytes. -/
def stringFromBytes (bytes : List Nat) : DResult (List Nat) :=
  match cstrFromBytesWithNul bytes with
  | .ok s => if validUtf8 s then .ok s else .err (kindErr .invalidInput)
  | .err e => .err e
  | .panic => .panic

/-- `Bytes::<String>::into_bytes` (src/bytes.rs): `CString::new(s).unwrap()`
then `into_bytes_with_nul`, i.e. the string's bytes followed by a NUL.
(The `unwrap` panics on interior NUL; every call site passes NUL-free
strings, and the round-trip theorems carry that hypothesis.) -/
def stringIntoBytes (s : List Nat) : List Nat := s ++ [0]

/-- `Opcode` (src/packet/opcode.rs). -/
inductive Opcode where
  | rrq
  | wrq
  | data
  | ack
  | error
  deriving DecidableEq, Repr

/-- The wire value of an `Opcode` (its discriminant as `u16`). -/
def Opcode.toU16 : Opcode → Nat
  | .rrq => 1
  | .wrq => 2
  | .data => 3
  | .ack => 4
  | .error => 5

/-- `Opcode::from_u16` (src/packet/opcode.rs). -/
def Opcode.from_u16 (val : Nat) : DResult Opcode :=
  if val = 1 then .ok .rrq
  else if val = 2 then .ok .wrq
  else if val = 3 then .ok .data
  else if val = 4 then .ok .ack
  else if val = 5 then .ok .error
  else .err (kindErr .invalidInput)

/-- `Opcode::from_bytes` (src/packet/opcode.rs). -/
def Opcode.from_bytes (bytes : List Nat) : DResult Opcode :=
  match bytesU16FromBytes bytes with
  | .ok v => Opcode.from_u16 v
  | .err e => .err e
  | .panic => .panic

/-- `Opcode::into_bytes` (src/packet/opcode.rs). -/
def Opcode.into_bytes (op : Opcode) : List Nat := bytesU16IntoBytes op.toU16

/-- `error::Code` (src/packet/error.rs). -/
inductive Code where
  | notDefined
  | fileNotFound
  | accessViolation
  | diskFull
  | illegalOperation
  | unknownTid
  | fileAlreadyExists
  | noSuchUser
  deriving DecidableEq, Repr

/-- The wire value of a `Code` (its discriminant as `u16`). -/
def Code.toU16 : Code → Nat
  | .notDefined => 0
  | .fileNotFound => 1
  | .accessViolation => 2
  | .diskFull => 3
  | .illegalOperation => 4
  | .unknownTid => 5
  | .fileAlreadyExists => 6
  | .noSuchUser => 7

/-- `Code::from_u16` (src/packet/error.rs). -/
def Code.from_u16 (val : Nat) : DResult Code :=
  if val = 0 then .ok .notDefined
  else if val = 1 then .ok .fileNotFound
  else if val = 2 then .ok .accessViolation
  else if val = 3 then .ok .diskFull
  else if val = 4 then .ok .illegalOperation
  else if val = 5 then .ok .unknownTid
  else if val = 6 then .ok .fileAlreadyExists
  else if val = 7 then .ok .noSuchUser
  else .err (kindErr .invalidInput)

/-- `Code::from_bytes` (src/packet/error.rs). -/
def Code.from_bytes (bytes : List Nat) : DResult Code :=
  match bytesU16FromBytes bytes with
  | .ok v => Code.from_u16 v
  | .err e => .err e
  | .panic => .panic

/-- `Code::into_bytes` (src/packet/error.rs). -/
def Code.into_bytes (c : Code) : List Nat := bytesU16IntoBytes c.toU16

/-- The `Display` string of a `Code` (src/packet/error.rs); also what
`Code::as_str` yields in `expect_packet`. -/
def Code.display : Code → List Nat
  | .notDefined => strBytes "Not defined, see error message (if any)"
  | .fileNotFound => strBytes "File not found"
  | .accessViolation => strBytes "Access violation"
  | .diskFull => strBytes "Disk full or allocation exceeded"
  | .illegalOperation => strBytes "Illegal TFTP operation"
  | .unknownTid => strBytes "Unknown transfer ID"
  | .fileAlreadyExists => strBytes "File already exists"
  | .noSuchUser => strBytes "No such user"

/-- `Mode` (src/packet/mode.rs). -/
inductive Mode where
  | mail
  | netAscii
  | octet
  deriving DecidableEq, Repr

/-- `Mode::into_string` (src/packet/mode.rs), as bytes. -/
def Mode.into_string : Mode → List Nat
  | .mail => strBytes "mail"
  | .netAscii => strBytes "netascii"
  | .octet => strBytes "octet"

/-- `u8::to_ascii_lowercase` on one byte. -/
def asciiLower (b : Nat) : Nat := if 65 ≤ b ∧ b ≤ 90 then b + 32 else b

/-- `Mode::from_str` (src/packet/mode.rs): lowercase, then match. -/
def Mode.from_str (s : List Nat) : DResult Mode :=
  let l := s.map asciiLower
  if l = strBytes "mail" then .ok .mail
  else if l = strBytes "netascii" then .ok .netAscii
  else if l = strBytes "octet" then .ok .octet
  else .err (kindErr .invalidInput)

/-- `Mode::from_bytes` (src/packet/mode.rs). -/
def Mode.from_bytes (bytes : List Nat) : DResult Mode :=
  match stringFromBytes bytes with
  | .ok s => Mode.from_str s
  | .err e => .err e
  | .panic => .panic

/-- `Mode::into_bytes` (src/packet/mode.rs). -/
def Mode.into_bytes (m : Mode) : List Nat := stringIntoBytes m.into_string

/-- `MAX_PAYLOAD_SIZE` (src/packet/mod.rs). -/
def MAX_PAYLOAD_SIZE : Nat := 512

/-- `MAX_PACKET_SIZE` (src/packet/mod.rs). -/
def MAX_PACKET_SIZE : Nat := 516

/-- `Block` (src/packet/mod.rs): a `u16` block identifier, kept as `Nat`. -/
def Block := Nat

/-- `Block::from_bytes` (src/packet/mod.rs), via `Bytes::<u16>`. -/
def Block.from_bytes (bytes : List Nat) : DResult Nat := bytesU16FromBytes bytes

/-- `Block::into_bytes` (src/packet/mod.rs), via `Bytes::<u16>`. -/
def Block.into_bytes (b : Nat) : List Nat := bytesU16IntoBytes b

/-- `Rq` (src/packet/rq/mod.rs): the shared body of `Rrq` and `Wrq`
(each is a newtype around `Rq`). -/
structure Rq where
  filename : List Nat
  mode : Mode
  deriving DecidableEq, Repr

/-- `Rq::from_bytes` (src/packet/rq/mod.rs): split one past the first NUL;
the filename slice keeps its NUL for `Bytes::<String>`, the rest is the
mode. `split_at(first_nul + 1)` cannot overrun since the NUL was found. -/
def Rq.from_bytes (bytes : List Nat) : DResult Rq :=
  match firstNulIdx bytes with
  | none => .err (kindErr .invalidInput)
  | some first_nul =>
    let filename := bytes.take (first_nul + 1)
    let mode := bytes.drop (first_nul + 1)
    match stringFromBytes filename with
    | .err e => .err e
    | .panic => .panic
    | .ok filename =>
      match Mode.from_bytes mode with
      | .err e => .err e
      | .panic => .panic
      | .ok mode => .ok ⟨filename, mode⟩

/-- `Rq::into_bytes` (src/packet/rq/mod.rs). -/
def Rq.into_bytes (rq : Rq) : List Nat :=
  stringIntoBytes rq.filename ++ rq.mode.into_bytes

/-- `Data` (src/packet/data.rs). -/
structure Data where
  block : Nat
  data : List Nat
  deriving DecidableEq, Repr

/-- `Data::from_bytes` (src/packet/data.rs): requires at least 2 bytes for
the block, the rest is the payload. No upper bound on the payload length. -/
def Data.from_bytes (bytes : List Nat) : DResult Data :=
  if 2 > bytes.length then .err (kindErr .invalidInput)
  else
    match Block.from_bytes (bytes.take 2) with
    | .err e => .err e
    | .panic => .panic
    | .ok block => .ok ⟨block, bytes.drop 2⟩

/-- `Data::into_bytes` (src/packet/data.rs). -/
def Data.into_bytes (d : Data) : List Nat := Block.into_bytes d.block ++ d.data

/-- `Ack` (src/packet/ack.rs). -/
structure Ack where
  block : Nat
  deriving DecidableEq, Repr

/-- `Ack::from_bytes` (src/packet/ack.rs): the body must be exactly 2 bytes. -/
def Ack.from_bytes (bytes : List Nat) : DResult Ack :=
  if bytes.length ≠ 2 then .err (kindErr .invalidInput)
  else
    match Block.from_bytes (bytes.take 2) with
    | .err e => .err e
    | .panic => .panic
    | .ok block => .ok ⟨block⟩

/-- `Ack::into_bytes` (src/packet/ack.rs). -/
def Ack.into_bytes (a : Ack) : List Nat := Block.into_bytes a.block

/-- `error::Error` (src/packet/error.rs): an error code and a message. -/
structure Err where
  code : Code
  message : List Nat
  deriving DecidableEq, Repr

/-- `Error::from_bytes` (src/packet/error.rs): `bytes.split_at(2)` panics
when the body is shorter than 2 bytes; then a `Code` and a NUL-terminated
message. -/
def Err.from_bytes (bytes : List Nat) : DResult Err :=
  if bytes.length < 2 then .panic
  else
    match Code.from_bytes (bytes.take 2) with
    | .err e => .err e
    | .panic => .panic
    | .ok code =>
      match stringFromBytes (bytes.drop 2) with
      | .err e => .err e
      | .panic => .panic
      | .ok message => .ok ⟨code, message⟩

/-- `Error::into_bytes` (src/packet/error.rs). -/
def Err.into_bytes (e : Err) : List Nat :=
  e.code.into_bytes ++ stringIntoBytes e.message

/-- The five instantiations of the sealed `Packet` trait
(src/packet/mod.rs): which body type a `Packet<T>` carries. -/
inductive PType where
  | rrq
  | wrq
  | data
  | ack
  | error
  deriving DecidableEq, Repr

/-- `T::OPCODE` for each sealed packet type. -/
def PType.opcode : PType → Opcode
  | .rrq => .rrq
  | .wrq => .wrq
  | .data => .data
  | .ack => .ack
  | .error => .error

/-- The body type carried by each packet type (`Rrq` and `Wrq` are newtypes
around `Rq`, kept as `Rq` here; the `PType` index keeps them apart). -/
def PBody : PType → Type
  | .rrq => Rq
  | .wrq => Rq
  | .data => Data
  | .ack => Ack
  | .error => Err

instance : (t : PType) → DecidableEq (PBody t)
  | .rrq => inferInstanceAs (DecidableEq Rq)
  | .wrq => inferInstanceAs (DecidableEq Rq)
  | .data => inferInstanceAs (DecidableEq Data)
  | .ack => inferInstanceAs (DecidableEq Ack)
  | .error => inferInstanceAs (DecidableEq Err)

/-- `T::from_bytes` for each sealed packet type. -/
def PBody.from_bytes : (t : PType) → List Nat → DResult (PBody t)
  | .rrq => Rq.from_bytes
  | .wrq => Rq.from_bytes
  | .data => Data.from_bytes
  | .ack => Ack.from_bytes
  | .error => Err.from_bytes

/-- `T::into_bytes` for each sealed packet type. -/
def PBody.into_bytes : (t : PType) → PBody t → List Nat
  | .rrq => Rq.into_bytes
  | .wrq => Rq.into_bytes
  | .data => Data.into_bytes
  | .ack => Ack.into_bytes
  | .error => Err.into_bytes

/-- `Packet<T>` (src/packet/mod.rs): an opcode header plus a body. -/
structure Packet (t : PType) where
  header : Opcode
  body : PBody t

instance (t : PType) : DecidableEq (Packet t) := fun p q =>
  match p, q with
  | ⟨h1, b1⟩, ⟨h2, b2⟩ =>
    if hh : h1 = h2 then
      if hb : b1 = b2 then .isTrue (by cases hh; cases hb; rfl)
      else .isFalse (by intro h; cases h; exact hb rfl)
    else .isFalse (by intro h; cases h; exact hh rfl)

/-- `Packet::rrq` (src/packet/mod.rs). -/
def Packet.rrq (filename : List Nat) (mode : Mode) : Packet .rrq :=
  ⟨.rrq, ⟨filename, mode⟩⟩

/-- `Packet::wrq` (src/packet/mod.rs). -/
def Packet.wrq (filename : List Nat) (mode : Mode) : Packet .wrq :=
  ⟨.wrq, ⟨filename, mode⟩⟩

/-- `Packet::data` (src/packet/mod.rs). -/
def Packet.data (block : Nat) (payload : List Nat) : Packet .data :=
  ⟨.data, ⟨block, payload⟩⟩

/-- `Packet::ack` (src/packet/mod.rs). -/
def Packet.ack (block : Nat) : Packet .ack := ⟨.ack, ⟨block⟩⟩

/-- `Packet::error` (src/packet/mod.rs). -/
def Packet.error (code : Code) (message : List Nat) : Packet .error :=
  ⟨.error, ⟨code, message⟩⟩

/-- `Packet::<T>::from_bytes` (src/packet/mod.rs):
`bytes.split_at(size_of::<u16>())` panics when the buffer is shorter than
2 bytes; then the opcode must decode and equal `T::OPCODE`
(else `InvalidData`), and the body decode has its error mapped to
`InvalidData`. -/
def Packet.from_bytes (t : PType) (bytes : List Nat) : DResult (Packet t) :=
  if bytes.length < 2 then .panic
  else
    match Opcode.from_bytes (bytes.take 2) with
    | .err e => .err e
    | .panic => .panic
    | .ok opcode =>
      if opcode = t.opcode then
        match PBody.from_bytes t (bytes.drop 2) with
        | .ok body => .ok ⟨opcode, body⟩
        | .err _ => .err (kindErr .invalidData)
        | .panic => .panic
      else .err (kindErr .invalidData)

/-- `Packet::<T>::into_bytes` (src/packet/mod.rs): header bytes then body
bytes. -/
def Packet.into_bytes {t : PType} (p : Packet t) : List Nat :=
  p.header.into_bytes ++ PBody.into_bytes t p.body

/-- The `ErrorKind → Code` mapping used by `From<io::Error> for
Packet<Error>` (src/packet/mod.rs) and by `err.kind().into()` in
src/connection.rs. -/
def codeFromKind : ErrorKind → Code
  | .notFound => .fileNotFound
  | .permissionDenied => .accessViolation
  | .alreadyExists => .fileAlreadyExists
  | _ => .notDefined

/-- `From<io::Error> for Packet<Error>` (src/packet/mod.rs): code from the
kind, message from the code's `Display` string. -/
def packetErrorFromIoErr (e : IoErr) : Packet .error :=
  Packet.error (codeFromKind e.kind) (codeFromKind e.kind).display

/-- `From<Packet<Error>> for io::Error` (src/packet/mod.rs): kind from the
code (three specific codes, `Other` for the rest), message carried over. -/
def ioErrFromPacketError (p : Packet .error) : IoErr :=
  let kind : ErrorKind :=
    match p.body.code with
    | .fileNotFound => .notFound
    | .accessViolation => .permissionDenied
    | .fileAlreadyExists => .alreadyExists
    | _ => .other
  ⟨kind, p.body.message⟩

/-- `UdpSocket::expect_packet` (src/packet/expect.rs): try to decode the
expected packet type; on failure try to decode an `Error` packet and
surface it; failing both, send an `Error(IllegalOperation)` packet and
surface it as the error. Returns the packets sent alongside the outcome. -/
def expect_packet (t : PType) (bytes : List Nat) :
    List (List Nat) × DResult (Packet t) :=
  match Packet.from_bytes t bytes with
  | .ok packet => ([], .ok packet)
  | .panic => ([], .panic)
  | .err _ =>
    match Packet.from_bytes .error bytes with
    | .ok err_pkt => ([], .err (ioErrFromPacketError err_pkt))
    | .panic => ([], .panic)
    | .err _ =>
      let err := Packet.error .illegalOperation Code.illegalOperation.display
      ([err.into_bytes], .err (ioErrFromPacketError err))

/-- `Connection` (src/connection.rs); the connected socket is modelled by
the receive scripts fed to `get`/`put`. -/
structure Connection where
  max_retransmissions : Option Nat

/-- `Connection::check_retransmission` (src/connection.rs): non-timeout
errors are surfaced unchanged; otherwise the counter is incremented, and
with `Some(max)` exceeding `max` sends
`Error(NotDefined, "exceeded max retransmissions")` and surfaces the
original (timeout) error. Returns the packets sent, and either the
surfaced error or the updated counter. -/
def Connection.check_retransmission (c : Connection) (error : IoErr)
    (current_retransmissions : Nat) : List (List Nat) × Except IoErr Nat :=
  if ¬(error.kind = .wouldBlock ∨ error.kind = .timedOut) then
    ([], .error error)
  else
    let cur := current_retransmissions + 1
    match c.max_retransmissions with
    | some max =>
      if cur > max then
        ([(Packet.error .notDefined
            (strBytes "exceeded max retransmissions")).into_bytes],
         .error error)
      else ([], .ok cur)
    | none => ([], .ok cur)

/-- `Connection::get` (src/connection.rs), with the two nested loops
flattened into one recursion. Arguments: the receive script (one entry per
`socket.recv` call), the writer script (one entry per `write_all` call:
`none` = success, `some e` = failure with `e`), `last_block`,
`current_retransmissions`, the writer's accumulated contents, and the trace
of sent packets. Returns `none` when the script runs out (the real code
would still be blocked on the socket), otherwise the sent trace and the
result (the writer's contents on success). -/
def Connection.getLoop (c : Connection) :
    List (Except IoErr (List Nat)) → List (Option IoErr) → Option Nat →
    Nat → List Nat → List (List Nat) →
    Option (List (List Nat) × DResult (List Nat))
  | [], _, _, _, _, _ => none
  | ev :: script, ws, last_block, retries, acc, sent =>
    match ev with
    | .error error =>
      match last_block with
      | none => some (sent, .err error)
      | some lb =>
        match c.check_retransmission error retries with
        | (s1, .error e) => some (sent ++ s1, .err e)
        | (s1, .ok retries) =>
          Connection.getLoop c script ws (some lb) retries acc
            (sent ++ s1 ++ [(Packet.ack lb).into_bytes])
    | .ok bytes =>
      match expect_packet .data bytes with
      | (s1, .panic) => some (sent ++ s1, .panic)
      | (s1, .err e) => some (sent ++ s1, .err e)
      | (s1, .ok data) =>
        match ws with
        | [] => none
        | wev :: ws =>
          match wev with
          | some werr =>
            some (sent ++ s1 ++
              [(Packet.error (codeFromKind werr.kind) werr.msg).into_bytes],
              .err werr)
          | none =>
            let acc := acc ++ data.body.data
            let sent := sent ++ s1 ++ [(Packet.ack data.body.block).into_bytes]
            if data.body.data.length < MAX_PAYLOAD_SIZE then some (sent, .ok acc)
            else Connection.getLoop c script ws (some data.body.block) 0 acc sent

/-- `Connection::get` run from its initial state (`last_block = None`,
`current_retransmissions = 0`). -/
def Connection.get (c : Connection) (script : List (Except IoErr (List Nat)))
    (ws : List (Option IoErr)) : Option (List (List Nat) × DResult (List Nat)) :=
  Connection.getLoop c script ws none 0 [] []

/-- The `Debug` rendering of a number (`{:?}` on a `u16`), as bytes. -/
def natDebug (n : Nat) : List Nat := strBytes (Nat.repr n)

/-- The message of the `Error(IllegalOperation, ...)` packet sent by
`Connection::put` on a block mismatch: `{:?}` on the expected `u16` and on
the received `Block`. -/
def expectedAckMsg (current_block ack_block : Nat) : List Nat :=
  strBytes "expected ACK for " ++ natDebug current_block ++
  strBytes " but got ACK for Block(" ++ natDebug ack_block ++ strBytes ")"

/-- The inner loop of `Connection::put` (src/connection.rs): send the
current `Data` packet, then receive; on a timeout allowed by
`check_retransmission`, loop (resending the same packet). Returns the
decoded outcome, the unconsumed script, the updated counter, and the sent
trace. -/
def Connection.putAwaitAck (c : Connection) (data_bytes : List Nat) :
    List (Except IoErr (List Nat)) → Nat → List (List Nat) →
    Option (DResult (Packet .ack) × List (Except IoErr (List Nat)) × Nat ×
      List (List Nat))
  | [], _, _ => none
  | ev :: script, retries, sent =>
    let sent := sent ++ [data_bytes]
    match ev with
    | .ok bytes =>
      match expect_packet .ack bytes with
      | (s1, r) => some (r, script, retries, sent ++ s1)
    | .error error =>
      match c.check_retransmission error retries with
      | (s1, .error e) => some (.err e, script, retries, sent ++ s1)
      | (s1, .ok retries) =>
        Connection.putAwaitAck c data_bytes script retries (sent ++ s1)

/-- `Connection::put` (src/connection.rs). Arguments: the reader script
(one entry per `reader.read` call: a chunk of at most 512 bytes, or a read
error), the receive script, `current_block`, `current_retransmissions`, and
the sent trace. The block counter is a `u16` and wraps modulo 2^16. -/
def Connection.putLoop (c : Connection) :
    List (Except IoErr (List Nat)) → List (Except IoErr (List Nat)) → Nat →
    Nat → List (List Nat) → Option (List (List Nat) × DResult Unit)
  | [], _, _, _, _ => none
  | rev :: rscript, script, current_block, retries, sent =>
    match rev with
    | .error err =>
      some (sent ++ [(Packet.error (codeFromKind err.kind) err.msg).into_bytes],
        .err err)
    | .ok chunk =>
      let data_bytes := (Packet.data current_block chunk).into_bytes
      match Connection.putAwaitAck c data_bytes script retries sent with
      | none => none
      | some (.panic, _, _, sent) => some (sent, .panic)
      | some (.err e, _, _, sent) => some (sent, .err e)
      | some (.ok ack, script, retries, sent) =>
        if current_block ≠ ack.body.block then
          let error := Packet.error .illegalOperation
            (expectedAckMsg current_block ack.body.block)
          some (sent ++ [error.into_bytes], .err (ioErrFromPacketError error))
        else
          if chunk.length < MAX_PAYLOAD_SIZE then some (sent, .ok ())
          else
            Connection.putLoop c rscript script ((current_block + 1) % 65536)
              retries sent

/-- `Connection::put` run from its initial state (`current_block = 1`,
`current_retransmissions = 0`). -/
def Connection.put (c : Connection) (rscript script : List (Except IoErr (List Nat))) :
    Option (List (List Nat) × DResult Unit) :=
  Connection.putLoop c rscript script 1 0 []

/-- The post-receive step of `Client::put` (src/client.rs): the first
datagram received after the Wrq is decoded as an `Ack`; on success (the
block number is discarded by `let _ = ...`) the client proceeds to
`Connection::put`; on a decode error `e`, `e` is converted into an `Error`
packet (`From<io::Error>`) and that packet converted back into the
`io::Error` that is returned. Nothing is sent to the peer on this path. -/
def Client.putHandshake (buf : List Nat) : DResult Unit :=
  match Packet.from_bytes .ack buf with
  | .ok _ => .ok ()
  | .err e => .err (ioErrFromPacketError (packetErrorFromIoErr e))
  | .panic => .panic

/-- The request parsed by `Server::serve` (src/server.rs `Direction`). -/
inductive Direction where
  | get (rq : Packet .rrq)
  | put (rq : Packet .wrq)
  deriving DecidableEq

/-- `Server::serve` (src/server.rs) after `recv_from` returned `buf` from
`src_addr`: insert `src_addr` into the active-clients pool, rejecting with
`AddrNotAvailable` if it is already present; then decode the buffer as an
`Rrq`, else as a `Wrq`, else send `Error(IllegalOperation)` and fail with
`InvalidInput` (with `src_addr` left in the pool). Returns the new pool,
the packets sent, and the outcome. The pool is a duplicate-free list. -/
def Server.serve (pool : List Nat) (src_addr : Nat) (buf : List Nat) :
    List Nat × List (List Nat) × DResult Direction :=
  if src_addr ∈ pool then
    (pool, [], .err ⟨.addrNotAvailable, strBytes "Client TID taken."⟩)
  else
    let pool := src_addr :: pool
    match Packet.from_bytes .rrq buf with
    | .panic => (pool, [], .panic)
    | .ok rq => (pool, [], .ok (.get rq))
    | .err _ =>
      match Packet.from_bytes .wrq buf with
      | .panic => (pool, [], .panic)
      | .ok wq => (pool, [], .ok (.put wq))
      | .err _ =>
        (pool,
         [(Packet.error .illegalOperation Code.illegalOperation.display).into_bytes],
         .err (kindErr .invalidInput))

/-- `Handler::handle` (src/server.rs): run the transfer (its outcome is the
`result` argument, since the transfer engine is modelled separately), then
remove the client TID from the pool, and return the transfer's outcome —
the removal happens on success and on failure alike. -/
def Handler.handle (pool : List Nat) (client : Nat)
    (result : Except IoErr Unit) : List Nat × Except IoErr Unit :=
  (pool.erase client, result)

/-! ### Helper lemmas about the byte-level primitives -/

theorem bytesU16_roundtrip (b : Nat) (hb : b < 65536) :
    bytesU16FromBytes (bytesU16IntoBytes b) = .ok b := by
  simp [bytesU16IntoBytes, bytesU16FromBytes]
  omega

theorem take_len_append (l t : List Nat) : (l ++ t).take l.length = l := by
  induction l with
  | nil => simp
  | cons a l ih => simp [ih]

theorem take_len1_append (l : List Nat) (a : Nat) (t : List Nat) :
    (l ++ a :: t).take (l.length + 1) = l ++ [a] := by
  induction l with
  | nil => simp
  | cons b l ih => simp [ih]

theorem drop_len1_append (l : List Nat) (a : Nat) (t : List Nat) :
    (l ++ a :: t).drop (l.length + 1) = t := by
  induction l with
  | nil => simp
  | cons b l ih => simp [ih]

theorem firstNulIdx_append (f : List Nat) (hf : (0 : Nat) ∉ f) (rest : List Nat) :
    firstNulIdx (f ++ 0 :: rest) = some f.length := by
  induction f with
  | nil => simp [firstNulIdx]
  | cons b f ih =>
    simp only [List.mem_cons, not_or] at hf
    have hb : ¬b = 0 := fun h => hf.1 h.symm
    simp [firstNulIdx, hb, ih hf.2]

theorem string_roundtrip (s : List Nat) (hs : (0 : Nat) ∉ s)
    (hu : validUtf8 s = true) :
    stringFromBytes (stringIntoBytes s) = .ok s := by
  have h1 : firstNulIdx (s ++ [0]) = some s.length := firstNulIdx_append s hs []
  have h2 : (s ++ [0]).take s.length = s := take_len_append s [0]
  simp [stringFromBytes, stringIntoBytes, cstrFromBytesWithNul, h1, h2, hu]

theorem opcode_roundtrip (op : Opcode) :
    Opcode.from_bytes (Opcode.into_bytes op) = .ok op := by
  cases op <;> decide

theorem code_roundtrip (c : Code) :
    Code.from_bytes (Code.into_bytes c) = .ok c := by
  cases c <;> decide

theorem mode_roundtrip (m : Mode) :
    Mode.from_bytes (Mode.into_bytes m) = .ok m := by
  cases m <;> decide

theorem opcode_into_bytes_eq (op : Opcode) :
    Opcode.into_bytes op = [0, op.toU16] := by
  cases op <;> rfl

theorem code_into_bytes_eq (c : Code) :
    Code.into_bytes c = [0, c.toU16] := by
  cases c <;> rfl

/-- Decoding a packet whose buffer is the right opcode header followed by a
body that decodes as `body` yields the packet. -/
theorem packet_from_ok (t : PType) (B : List Nat) (body : PBody t)
    (hB : PBody.from_bytes t B = .ok body) :
    Packet.from_bytes t (Opcode.into_bytes t.opcode ++ B) =
      .ok ⟨t.opcode, body⟩ := by
  cases t <;>
    simp [Packet.from_bytes, opcode_into_bytes_eq, Opcode.toU16, PType.opcode,
      Opcode.from_bytes, bytesU16FromBytes, Opcode.from_u16, hB]

theorem rq_roundtrip (f : List Nat) (m : Mode) (hf : (0 : Nat) ∉ f)
    (hu : validUtf8 f = true) :
    Rq.from_bytes (Rq.into_bytes ⟨f, m⟩) = .ok ⟨f, m⟩ := by
  have hrw : Rq.into_bytes ⟨f, m⟩ = f ++ 0 :: Mode.into_bytes m := by
    simp [Rq.into_bytes, stringIntoBytes]
  have h1 : firstNulIdx (f ++ 0 :: Mode.into_bytes m) = some f.length :=
    firstNulIdx_append f hf _
  have h2 : (f ++ 0 :: Mode.into_bytes m).take (f.length + 1) = f ++ [0] :=
    take_len1_append f 0 _
  have h3 : (f ++ 0 :: Mode.into_bytes m).drop (f.length + 1) = Mode.into_bytes m :=
    drop_len1_append f 0 _
  have h4 : stringFromBytes (f ++ [0]) = .ok f := string_roundtrip f hf hu
  simp [hrw, Rq.from_bytes, h1, h2, h3, h4, mode_roundtrip m]

theorem rrq_roundtrip (f : List Nat) (m : Mode) (hf : (0 : Nat) ∉ f)
    (hu : validUtf8 f = true) :
    Packet.from_bytes .rrq ((Packet.rrq f m).into_bytes) = .ok (Packet.rrq f m) :=
  packet_from_ok .rrq _ _ (rq_roundtrip f m hf hu)

theorem wrq_roundtrip (f : List Nat) (m : Mode) (hf : (0 : Nat) ∉ f)
    (hu : validUtf8 f = true) :
    Packet.from_bytes .wrq ((Packet.wrq f m).into_bytes) = .ok (Packet.wrq f m) :=
  packet_from_ok .wrq _ _ (rq_roundtrip f m hf hu)

theorem data_body_roundtrip (b : Nat) (hb : b < 65536) (p : List Nat) :
    Data.from_bytes (Data.into_bytes ⟨b, p⟩) = .ok ⟨b, p⟩ := by
  simp [Data.into_bytes, Data.from_bytes, Block.into_bytes, Block.from_bytes,
    bytesU16IntoBytes, bytesU16FromBytes]
  rw [if_neg (by omega)]
  simp
  omega

theorem data_roundtrip (b : Nat) (hb : b < 65536) (p : List Nat) :
    Packet.from_bytes .data ((Packet.data b p).into_bytes) =
      .ok (Packet.data b p) :=
  packet_from_ok .data _ _ (data_body_roundtrip b hb p)

theorem ack_body_roundtrip (b : Nat) (hb : b < 65536) :
    Ack.from_bytes (Ack.into_bytes ⟨b⟩) = .ok ⟨b⟩ := by
  simp [Ack.into_bytes, Ack.from_bytes, Block.into_bytes, Block.from_bytes,
    bytesU16IntoBytes, bytesU16FromBytes]
  omega

theorem ack_roundtrip (b : Nat) (hb : b < 65536) :
    Packet.from_bytes .ack ((Packet.ack b).into_bytes) = .ok (Packet.ack b) :=
  packet_from_ok .ack _ _ (ack_body_roundtrip b hb)

theorem err_body_roundtrip (c : Code) (msg : List Nat) (hm : (0 : Nat) ∉ msg)
    (hu : validUtf8 msg = true) :
    Err.from_bytes (Err.into_bytes ⟨c, msg⟩) = .ok ⟨c, msg⟩ := by
  have hrw : Err.into_bytes ⟨c, msg⟩ = 0 :: c.toU16 :: stringIntoBytes msg := by
    simp [Err.into_bytes, code_into_bytes_eq]
  have hc : Code.from_bytes [0, c.toU16] = .ok c := by
    have := code_roundtrip c
    rwa [code_into_bytes_eq] at this
  simp [hrw, Err.from_bytes, hc, string_roundtrip msg hm hu]

theorem error_roundtrip (c : Code) (msg : List Nat) (hm : (0 : Nat) ∉ msg)
    (hu : validUtf8 msg = true) :
    Packet.from_bytes .error ((Packet.error c msg).into_bytes) =
      .ok (Packet.error c msg) :=
  packet_from_ok .error _ _ (err_body_roundtrip c msg hm hu)

/-! ### Helper lemmas about the transfer engine -/

/-- A well-formed `Data` packet is accepted by `expect_packet` with no side
effects. -/
theorem expect_data_ok (b : Nat) (hb : b < 65536) (p : List Nat) :
    expect_packet .data ((Packet.data b p).into_bytes) =
      ([], .ok (Packet.data b p)) := by
  simp [expect_packet, data_roundtrip b hb p]

/-- A well-formed `Ack` packet is accepted by `expect_packet` with no side
effects. -/
theorem expect_ack_ok (b : Nat) (hb : b < 65536) :
    expect_packet .ack ((Packet.ack b).into_bytes) = ([], .ok (Packet.ack b)) := by
  simp [expect_packet, ack_roundtrip b hb]

theorem ack_block (b : Nat) : (Packet.ack b).body.block = b := rfl

theorem data_block (b : Nat) (p : List Nat) : (Packet.data b p).body.block = b :=
  rfl

theorem data_payload (b : Nat) (p : List Nat) : (Packet.data b p).body.data = p :=
  rfl

theorem ioErr_illegalOp (msg : List Nat) :
    ioErrFromPacketError (Packet.error .illegalOperation msg) = ⟨.other, msg⟩ :=
  rfl

/-- An error kind is a timeout kind when it is `WouldBlock` or `TimedOut`. -/
def timeoutKind (e : IoErr) : Prop :=
  e.kind = .wouldBlock ∨ e.kind = .timedOut

instance (e : IoErr) : Decidable (timeoutKind e) := by
  unfold timeoutKind
  infer_instance

/-- The wire bytes of the "exceeded max retransmissions" error packet. -/
def exceededBytes : List Nat :=
  (Packet.error .notDefined (strBytes "exceeded max retransmissions")).into_bytes

theorem check_not_timeout (c : Connection) (e : IoErr) (cur : Nat)
    (h : ¬timeoutKind e) :
    c.check_retransmission e cur = ([], .error e) := by
  unfold timeoutKind at h
  unfold Connection.check_retransmission
  rw [if_pos h]

theorem check_ok_some (N : Nat) (e : IoErr) (cur : Nat) (ht : timeoutKind e)
    (hc : cur + 1 ≤ N) :
    Connection.check_retransmission ⟨some N⟩ e cur = ([], .ok (cur + 1)) := by
  unfold timeoutKind at ht
  unfold Connection.check_retransmission
  rw [if_neg (not_not_intro ht)]
  simp only []
  rw [if_neg (by omega)]

theorem check_exceed (N : Nat) (e : IoErr) (cur : Nat) (ht : timeoutKind e)
    (hc : N < cur + 1) :
    Connection.check_retransmission ⟨some N⟩ e cur = ([exceededBytes], .error e) := by
  unfold timeoutKind at ht
  unfold Connection.check_retransmission
  rw [if_neg (not_not_intro ht)]
  simp only []
  rw [if_pos (by omega)]
  rfl

theorem check_none (e : IoErr) (cur : Nat) (ht : timeoutKind e) :
    Connection.check_retransmission ⟨none⟩ e cur = ([], .ok (cur + 1)) := by
  unfold timeoutKind at ht
  unfold Connection.check_retransmission
  rw [if_neg (not_not_intro ht)]

/-- `Bytes::<u16>::from_bytes` only fails with `InvalidInput`. -/
theorem bytesU16_err_kind (l : List Nat) (e : IoErr)
    (h : bytesU16FromBytes l = .err e) : e = kindErr .invalidInput := by
  unfold bytesU16FromBytes at h
  split at h
  · injection h with h
    exact h.symm
  · split at h <;> cases h

/-- `Opcode::from_bytes` only fails with `InvalidInput`. -/
theorem opcode_err_kind (l : List Nat) (e : IoErr)
    (h : Opcode.from_bytes l = .err e) : e = kindErr .invalidInput := by
  unfold Opcode.from_bytes at h
  split at h
  · rename_i v hv
    unfold Opcode.from_u16 at h
    repeat' split at h
    all_goals cases h <;> rfl
  · rename_i e2 he2
    have h2 : e2 = e := by injection h
    subst h2
    exact bytesU16_err_kind l e2 he2
  · cases h

/-- `Packet::<T>::from_bytes` only fails with `InvalidInput` or
`InvalidData`. -/
theorem packet_from_bytes_err_kind (t : PType) (l : List Nat) (e : IoErr)
    (h : Packet.from_bytes t l = .err e) :
    e = kindErr .invalidInput ∨ e = kindErr .invalidData := by
  unfold Packet.from_bytes at h
  split at h
  · cases h
  · split at h
    · rename_i e2 he2
      have h2 : e2 = e := by injection h
      subst h2
      exact Or.inl (opcode_err_kind _ e2 he2)
    · cases h
    · rename_i opcode hop
      split at h
      · split at h
        · cases h
        · injection h with h2
          exact Or.inr h2.symm
        · cases h
      · injection h with h2
        exact Or.inr h2.symm

/-- In a duplicate-free pool, erasing an element removes it. -/
theorem not_mem_erase_self (l : List Nat) (a : Nat) (h : l.Nodup) :
    a ∉ l.erase a := by
  induction l with
  | nil => simp
  | cons b l ih =>
    rw [List.nodup_cons] at h
    rw [List.erase_cons]
    split
    · rename_i hba
      intro hmem
      rw [beq_iff_eq] at hba
      subst hba
      exact h.1 hmem
    · intro hmem
      rcases List.mem_cons.mp hmem with h1 | h1
      · rename_i hba
        rw [beq_iff_eq] at hba
        exact hba h1.symm
      · exact ih h.2 h1

/-- `Opcode::from_u16` succeeds exactly on the opcode's wire value. -/
theorem from_u16_ok (v : Nat) (op : Opcode) (h : Opcode.from_u16 v = .ok op) :
    v = op.toU16 := by
  unfold Opcode.from_u16 at h
  repeat' split at h
  all_goals
    first
    | (injection h; done)
    | (injection h with h2; subst h2; simp [Opcode.toU16]; omega)

/-- `bytesU16FromBytes` on an exactly-2-byte buffer. -/
theorem bytesU16_two (x y : Nat) : bytesU16FromBytes [x, y] = .ok (x * 256 + y) :=
  rfl

/-- A successful `Ack` body decode pins the body length to 2. -/
theorem ack_from_bytes_ok_len (l : List Nat) (q : Ack)
    (h : Ack.from_bytes l = .ok q) : l.length = 2 := by
  by_contra hne
  unfold Ack.from_bytes at h
  rw [if_pos hne] at h
  cases h

/-- A successful `Data` body decode needs at least 2 bytes for the block. -/
theorem data_from_bytes_ok_len (l : List Nat) (q : Data)
    (h : Data.from_bytes l = .ok q) : 2 ≤ l.length := by
  by_contra hlt
  unfold Data.from_bytes at h
  rw [if_pos (by omega)] at h
  cases h

/-- The pieces guaranteed by a successful `Packet::<T>::from_bytes`. -/
theorem packet_from_bytes_ok_parts (t : PType) (buf : List Nat) (p : Packet t)
    (h : Packet.from_bytes t buf = .ok p) :
    2 ≤ buf.length ∧ Opcode.from_bytes (buf.take 2) = .ok t.opcode ∧
      PBody.from_bytes t (buf.drop 2) = .ok p.body := by
  unfold Packet.from_bytes at h
  split at h
  · cases h
  · rename_i hlen
    refine ⟨by omega, ?_⟩
    split at h
    · cases h
    · cases h
    · rename_i opcode hop
      split at h
      · rename_i heqop
        subst heqop
        split at h
        · rename_i body hbody
          injection h with h2
          exact ⟨hop, by rw [← h2]; exact hbody⟩
        · cases h
        · cases h
      · cases h

/-- A successfully decoded 2-byte opcode field pins the bytes down. -/
theorem opcode_from_bytes_ok_shape (x y : Nat) (hx : x < 256) (hy : y < 256)
    (op : Opcode) (h : Opcode.from_bytes [x, y] = .ok op) :
    x = 0 ∧ y = op.toU16 := by
  have h1 : Opcode.from_u16 (x * 256 + y) = .ok op := by
    unfold Opcode.from_bytes at h
    rw [bytesU16_two] at h
    exact h
  have h2 := from_u16_ok _ _ h1
  have h3 : op.toU16 ≤ 5 := by cases op <;> decide
  omega

/-! ### The claims -/

/-- C1: the claim says that decoding any byte buffer as any of the five
packet types returns a `Result` and never panics, truncated buffers failing
with an invalid-input error. The code violates this: `Packet::<T>::from_bytes`
calls `bytes.split_at(2)`, which panics on buffers of length 0 or 1;
`Error::from_bytes` panics the same way on bodies shorter than 2 bytes
(e.g. the 3-byte buffer `[0, 5, 0]`), and `Bytes::<u16>::from_bytes` panics
in `copy_from_slice` on buffers shorter than 2 bytes. This theorem evaluates
the embedded code at those failing inputs. -/
theorem c1_decoders_panic_on_short_buffers :
    (∀ t : PType, Packet.from_bytes t [] = .panic) ∧
    (∀ (t : PType) (b : Nat), Packet.from_bytes t [b] = .panic) ∧
    Packet.from_bytes .error [0, 5, 0] = .panic ∧
    bytesU16FromBytes [0] = .panic :=
  ⟨fun _ => rfl, fun _ _ => rfl, by decide, rfl⟩

/-- C2: for every well-formed packet value P — an `Rrq` or `Wrq` whose
filename has no interior NUL (and, being a Rust `String`, is valid UTF-8),
a `Data` with payload of at most 512 bytes, an `Ack`, or an `Error` whose
message has no interior NUL — decoding the byte encoding of P yields
exactly P. Block numbers and codes are `u16` values (`< 65536`). -/
theorem c2_decode_encode_roundtrip :
    (∀ (f : List Nat) (m : Mode), (0 : Nat) ∉ f → validUtf8 f = true →
      Packet.from_bytes .rrq ((Packet.rrq f m).into_bytes) = .ok (Packet.rrq f m)) ∧
    (∀ (f : List Nat) (m : Mode), (0 : Nat) ∉ f → validUtf8 f = true →
      Packet.from_bytes .wrq ((Packet.wrq f m).into_bytes) = .ok (Packet.wrq f m)) ∧
    (∀ (b : Nat) (p : List Nat), b < 65536 → p.length ≤ MAX_PAYLOAD_SIZE →
      Packet.from_bytes .data ((Packet.data b p).into_bytes) = .ok (Packet.data b p)) ∧
    (∀ b : Nat, b < 65536 →
      Packet.from_bytes .ack ((Packet.ack b).into_bytes) = .ok (Packet.ack b)) ∧
    (∀ (c : Code) (msg : List Nat), (0 : Nat) ∉ msg → validUtf8 msg = true →
      Packet.from_bytes .error ((Packet.error c msg).into_bytes) =
        .ok (Packet.error c msg)) :=
  ⟨fun f m hf hu => rrq_roundtrip f m hf hu,
   fun f m hf hu => wrq_roundtrip f m hf hu,
   fun b p hb _ => data_roundtrip b hb p,
   fun b hb => ack_roundtrip b hb,
   fun c msg hm hu => error_roundtrip c msg hm hu⟩

/-- C2 witness: the round-trip evaluated on concrete packets. -/
theorem c2_decode_encode_roundtrip_witness :
    ((0 : Nat) ∉ strBytes "a.txt" ∧ validUtf8 (strBytes "a.txt") = true ∧
      (1 : Nat) < 65536 ∧
      (List.replicate 512 (7 : Nat)).length ≤ MAX_PAYLOAD_SIZE) ∧
    Packet.from_bytes .rrq ((Packet.rrq (strBytes "a.txt") .netAscii).into_bytes) =
      .ok (Packet.rrq (strBytes "a.txt") .netAscii) ∧
    Packet.from_bytes .wrq ((Packet.wrq (strBytes "a.txt") .octet).into_bytes) =
      .ok (Packet.wrq (strBytes "a.txt") .octet) ∧
    Packet.from_bytes .data ((Packet.data 1 (List.replicate 512 7)).into_bytes) =
      .ok (Packet.data 1 (List.replicate 512 7)) ∧
    Packet.from_bytes .ack ((Packet.ack 1).into_bytes) = .ok (Packet.ack 1) ∧
    Packet.from_bytes .error ((Packet.error .fileNotFound (strBytes "File not found")).into_bytes) =
      .ok (Packet.error .fileNotFound (strBytes "File not found")) :=
  ⟨⟨by decide, by decide, by decide,
    by rw [List.length_replicate]; decide⟩,
   c2_decode_encode_roundtrip.1 _ _ (by decide) (by decide),
   c2_decode_encode_roundtrip.2.1 _ _ (by decide) (by decide),
   c2_decode_encode_roundtrip.2.2.1 1 _ (by decide)
     (by rw [List.length_replicate]; decide),
   c2_decode_encode_roundtrip.2.2.2.1 1 (by decide),
   c2_decode_encode_roundtrip.2.2.2.2 _ _ (by decide) (by decide)⟩

/-- C3 counterexample: the claim says a buffer decodes as `Data` only if
its payload part is at most 512 bytes; but `Data::from_bytes` never checks
an upper bound, so a 513-byte payload decodes successfully. -/
theorem c3_counterexample :
    Packet.from_bytes .data ([0, 3, 0, 1] ++ List.replicate 513 7) =
      .ok (Packet.data 1 (List.replicate 513 7)) ∧
    (List.replicate 513 (7 : Nat)).length = 513 :=
  ⟨data_roundtrip 1 (by omega) (List.replicate 513 7),
   by rw [List.length_replicate]⟩

/-- C3 amended: decoding a buffer as packet type T succeeds only when the
leading two bytes are T's big-endian opcode; a buffer decodes as `Ack` only
if it is exactly 4 bytes long; a buffer decodes as `Data` only if it is at
least 4 bytes long, but the decoder imposes no upper bound on the payload
(the well-formed encoding of a `Data` packet decodes successfully for every
payload length). -/
theorem c3_amended (t : PType) (buf : List Nat) (hb : ∀ x ∈ buf, x < 256) :
    (∀ p : Packet t, Packet.from_bytes t buf = .ok p →
        buf.take 2 = Opcode.into_bytes t.opcode) ∧
    (∀ q : Packet .ack, Packet.from_bytes .ack buf = .ok q → buf.length = 4) ∧
    (∀ q : Packet .data, Packet.from_bytes .data buf = .ok q → 4 ≤ buf.length) ∧
    (∀ (b : Nat) (p : List Nat), b < 65536 →
        Packet.from_bytes .data ((Packet.data b p).into_bytes) =
          .ok (Packet.data b p)) := by
  refine ⟨?_, ?_, ?_, fun b p hb2 => data_roundtrip b hb2 p⟩
  · intro p h
    obtain ⟨hlen, hop, -⟩ := packet_from_bytes_ok_parts t buf p h
    match buf, hlen with
    | x :: y :: rest, _ =>
      have hx : x < 256 := hb x (by simp)
      have hy : y < 256 := hb y (by simp)
      have htake : (x :: y :: rest).take 2 = [x, y] := rfl
      rw [htake] at hop ⊢
      obtain ⟨h0, hto⟩ := opcode_from_bytes_ok_shape x y hx hy _ hop
      rw [opcode_into_bytes_eq, h0, hto]
  · intro q h
    obtain ⟨hlen, -, hbody⟩ := packet_from_bytes_ok_parts .ack buf q h
    have h2 := ack_from_bytes_ok_len _ _ hbody
    have h3 : (buf.drop 2).length = buf.length - 2 := by simp
    omega
  · intro q h
    obtain ⟨hlen, -, hbody⟩ := packet_from_bytes_ok_parts .data buf q h
    have h2 := data_from_bytes_ok_len _ _ hbody
    have h3 : (buf.drop 2).length = buf.length - 2 := by simp
    omega

/-- C3 amended witness: evaluated at the concrete 4-byte Ack buffer and a
1-byte-payload Data packet. -/
theorem c3_amended_witness :
    (∀ x ∈ [0, 4, 0, 1], x < 256) ∧
    [0, 4, 0, 1].take 2 = Opcode.into_bytes PType.ack.opcode ∧
    Packet.from_bytes .data ((Packet.data 2 [9]).into_bytes) =
      .ok (Packet.data 2 [9]) :=
  ⟨by decide,
   (c3_amended .ack [0, 4, 0, 1] (by decide)).1 (Packet.ack 1) (by decide),
   (c3_amended .ack [0, 4, 0, 1] (by decide)).2.2.2 2 [9] (by decide)⟩

/-- C5: `check_retransmission` surfaces non-timeout errors unchanged;
on a timeout it increments the counter; with `max_retransmissions = Some N`
it sends `Error(NotDefined, "exceeded max retransmissions")` and surfaces
the original timeout error as soon as the incremented counter exceeds N
(so `Some 0` fails on the first timeout), and with `None` it always permits
the retransmission. -/
theorem c5_check_retransmission (c : Connection) (e : IoErr) (cur : Nat) :
    (¬timeoutKind e → c.check_retransmission e cur = ([], .error e)) ∧
    (timeoutKind e →
      (c.max_retransmissions = none →
        c.check_retransmission e cur = ([], .ok (cur + 1))) ∧
      (∀ N, c.max_retransmissions = some N →
        (N < cur + 1 →
          c.check_retransmission e cur = ([exceededBytes], .error e)) ∧
        (cur + 1 ≤ N →
          c.check_retransmission e cur = ([], .ok (cur + 1))))) := by
  obtain ⟨mr⟩ := c
  refine ⟨fun h => check_not_timeout _ e cur h, fun ht => ⟨fun hn => ?_, fun N hN => ?_⟩⟩
  · cases hn
    exact check_none e cur ht
  · cases hN
    exact ⟨fun hlt => check_exceed N e cur ht hlt,
           fun hle => check_ok_some N e cur ht hle⟩

/-- C5 witness: with `Some 0`, the first timeout already sends the
"exceeded max retransmissions" error packet and surfaces the timeout. -/
theorem c5_check_retransmission_witness :
    timeoutKind ⟨.timedOut, []⟩ ∧
    Connection.check_retransmission ⟨some 0⟩ ⟨.timedOut, []⟩ 0 =
      ([exceededBytes], .error ⟨.timedOut, []⟩) ∧
    Connection.check_retransmission ⟨none⟩ ⟨.timedOut, []⟩ 5 = ([], .ok 6) ∧
    Connection.check_retransmission ⟨some 3⟩ ⟨.other, []⟩ 0 =
      ([], .error ⟨.other, []⟩) :=
  ⟨by decide,
   (((c5_check_retransmission ⟨some 0⟩ ⟨.timedOut, []⟩ 0).2 (by decide)).2 0 rfl).1
     (by decide),
   ((c5_check_retransmission ⟨none⟩ ⟨.timedOut, []⟩ 5).2 (by decide)).1 rfl,
   (c5_check_retransmission ⟨some 3⟩ ⟨.other, []⟩ 0).1 (by decide)⟩

/-- C9: converting an OS error to an `Error` packet maps not-found to
`FileNotFound`, permission-denied to `AccessViolation`, already-exists to
`FileAlreadyExists`, and every other kind to `NotDefined`; the reverse
conversion chooses the corresponding OS error kind for those three codes,
maps every other code to the generic `Other` kind, and carries the packet's
message as the diagnostic text. -/
theorem c9_error_mapping :
    (∀ m, (packetErrorFromIoErr ⟨.notFound, m⟩).body.code = .fileNotFound) ∧
    (∀ m, (packetErrorFromIoErr ⟨.permissionDenied, m⟩).body.code = .accessViolation) ∧
    (∀ m, (packetErrorFromIoErr ⟨.alreadyExists, m⟩).body.code = .fileAlreadyExists) ∧
    (∀ m, (packetErrorFromIoErr ⟨.wouldBlock, m⟩).body.code = .notDefined) ∧
    (∀ m, (packetErrorFromIoErr ⟨.timedOut, m⟩).body.code = .notDefined) ∧
    (∀ m, (packetErrorFromIoErr ⟨.invalidInput, m⟩).body.code = .notDefined) ∧
    (∀ m, (packetErrorFromIoErr ⟨.invalidData, m⟩).body.code = .notDefined) ∧
    (∀ m, (packetErrorFromIoErr ⟨.addrNotAvailable, m⟩).body.code = .notDefined) ∧
    (∀ m, (packetErrorFromIoErr ⟨.other, m⟩).body.code = .notDefined) ∧
    (∀ m, ioErrFromPacketError (Packet.error .fileNotFound m) = ⟨.notFound, m⟩) ∧
    (∀ m, ioErrFromPacketError (Packet.error .accessViolation m) =
      ⟨.permissionDenied, m⟩) ∧
    (∀ m, ioErrFromPacketError (Packet.error .fileAlreadyExists m) =
      ⟨.alreadyExists, m⟩) ∧
    (∀ m, ioErrFromPacketError (Packet.error .notDefined m) = ⟨.other, m⟩) ∧
    (∀ m, ioErrFromPacketError (Packet.error .diskFull m) = ⟨.other, m⟩) ∧
    (∀ m, ioErrFromPacketError (Packet.error .illegalOperation m) = ⟨.other, m⟩) ∧
    (∀ m, ioErrFromPacketError (Packet.error .unknownTid m) = ⟨.other, m⟩) ∧
    (∀ m, ioErrFromPacketError (Packet.error .noSuchUser m) = ⟨.other, m⟩) :=
  ⟨fun _ => rfl, fun _ => rfl, fun _ => rfl, fun _ => rfl, fun _ => rfl,
   fun _ => rfl, fun _ => rfl, fun _ => rfl, fun _ => rfl, fun _ => rfl,
   fun _ => rfl, fun _ => rfl, fun _ => rfl, fun _ => rfl, fun _ => rfl,
   fun _ => rfl, fun _ => rfl⟩

/-- C6: in `Connection::put`, at any point of the transfer, if the received
`Ack` carries a block number different from the current block, the engine
sends `Error(IllegalOperation, ...)` to the peer and returns the
corresponding illegal-operation error to the caller; the sent trace ends
with that error packet, so no further `Data` packet is sent. -/
theorem c6_put_wrong_ack (c : Connection) (chunk : List Nat)
    (rs scr : List (Except IoErr (List Nat))) (b cb retries : Nat)
    (sent : List (List Nat)) (hb : b < 65536) (hne : cb ≠ b) :
    Connection.putLoop c (.ok chunk :: rs)
        (.ok ((Packet.ack b).into_bytes) :: scr) cb retries sent =
      some (sent ++ [(Packet.data cb chunk).into_bytes,
          (Packet.error .illegalOperation (expectedAckMsg cb b)).into_bytes],
        .err ⟨.other, expectedAckMsg cb b⟩) := by
  unfold Connection.putLoop Connection.putAwaitAck
  simp [expect_ack_ok b hb, ack_block, hne, ioErr_illegalOp]

/-- C6 witness: a concrete put receiving `Ack(2)` while sending block 1. -/
theorem c6_put_wrong_ack_witness :
    (2 : Nat) < 65536 ∧ (1 : Nat) ≠ 2 ∧
    Connection.putLoop ⟨none⟩ [.ok [1, 2, 3]] [.ok ((Packet.ack 2).into_bytes)]
        1 0 [] =
      some ([(Packet.data 1 [1, 2, 3]).into_bytes,
          (Packet.error .illegalOperation (expectedAckMsg 1 2)).into_bytes],
        .err ⟨.other, expectedAckMsg 1 2⟩) :=
  ⟨by decide, by decide, by
    have h := c6_put_wrong_ack ⟨none⟩ [1, 2, 3] [] [] 2 1 0 []
      (by decide) (by decide)
    simpa using h⟩

/-- C7 counterexample: the claim says the first datagram after the Wrq must
decode as an Ack with block 0, otherwise the client decodes it as an Error
packet and surfaces the corresponding error. But `Client::put` accepts an
Ack with any block number (block 5 proceeds), and on an incoming Error
packet it surfaces a `NotDefined`-derived error of kind `Other` instead of
the packet's own code (`FileAlreadyExists` would give kind
`AlreadyExists`). -/
theorem c7_counterexample :
    Client.putHandshake ((Packet.ack 5).into_bytes) = .ok () ∧
    Client.putHandshake
        ((Packet.error .fileAlreadyExists (strBytes "File already exists")).into_bytes) =
      .err ⟨.other, Code.display .notDefined⟩ := by
  decide

/-- C7 amended: the first datagram received after the Wrq must decode as an
Ack packet of any block number (block 0 is not checked); when the decode
fails, the decode error is converted through the OS-error-to-packet mapping
(always yielding code `NotDefined`) and surfaced as the error of kind
`Other` with that code's display text — the datagram is never decoded as an
Error packet and nothing is sent to the peer; a datagram shorter than two
bytes makes the decode (and hence the client) panic. -/
theorem c7_amended (buf : List Nat) :
    ((∃ a, Packet.from_bytes .ack buf = .ok a) →
      Client.putHandshake buf = .ok ()) ∧
    (∀ e, Packet.from_bytes .ack buf = .err e →
      Client.putHandshake buf = .err ⟨.other, Code.display .notDefined⟩) ∧
    (Packet.from_bytes .ack buf = .panic → Client.putHandshake buf = .panic) := by
  refine ⟨?_, ?_, ?_⟩
  · rintro ⟨a, ha⟩
    unfold Client.putHandshake
    rw [ha]
  · intro e he
    unfold Client.putHandshake
    rw [he]
    rcases packet_from_bytes_err_kind _ _ _ he with h | h <;> subst h <;> rfl
  · intro hp
    unfold Client.putHandshake
    rw [hp]

/-- C7 amended witness: a block-5 Ack proceeds; a garbage 2-byte buffer
fails with the converted `NotDefined` error. -/
theorem c7_amended_witness :
    (∃ a, Packet.from_bytes .ack ((Packet.ack 5).into_bytes) = .ok a) ∧
    Client.putHandshake ((Packet.ack 5).into_bytes) = .ok () ∧
    Packet.from_bytes .ack [0, 9] = .err (kindErr .invalidInput) ∧
    Client.putHandshake [0, 9] = .err ⟨.other, Code.display .notDefined⟩ :=
  ⟨⟨Packet.ack 5, by decide⟩,
   (c7_amended ((Packet.ack 5).into_bytes)).1 ⟨Packet.ack 5, by decide⟩,
   by decide,
   (c7_amended [0, 9]).2.1 (kindErr .invalidInput) (by decide)⟩

/-- C8 counterexample: the claim says a transfer-ID is recorded in the
active set only on acceptance of a request that decodes as Rrq or Wrq. But
`Server::serve` inserts the sender's TID before decoding: a datagram that
decodes as neither request still leaves the TID recorded (and the serve
call fails with `InvalidInput` after sending `Error(IllegalOperation)`). -/
theorem c8_counterexample :
    Packet.from_bytes .rrq [0, 9] = .err (kindErr .invalidInput) ∧
    Packet.from_bytes .wrq [0, 9] = .err (kindErr .invalidInput) ∧
    Server.serve [] 7 [0, 9] =
      ([7],
       [(Packet.error .illegalOperation Code.illegalOperation.display).into_bytes],
       .err (kindErr .invalidInput)) := by
  decide

/-- C8 amended: `Server::serve` rejects a datagram with an
address-not-available error, leaving the pool unchanged, when the sender's
TID is already in the active set; a TID not already present is recorded
upon receipt, before decoding, and remains recorded even when the datagram
decodes as neither Rrq nor Wrq; `Handler::handle` returns the transfer's
outcome unchanged and removes the TID from the pool on success and on
failure alike. -/
theorem c8_amended (pool : List Nat) (src : Nat) (buf : List Nat)
    (r : Except IoErr Unit) :
    (src ∈ pool → Server.serve pool src buf =
      (pool, [], .err ⟨.addrNotAvailable, strBytes "Client TID taken."⟩)) ∧
    (src ∉ pool → (Server.serve pool src buf).1 = src :: pool) ∧
    (Handler.handle pool src r).2 = r ∧
    (pool.Nodup → src ∉ (Handler.handle pool src r).1) := by
  refine ⟨fun hmem => ?_, fun hnot => ?_, rfl,
    fun hnd => not_mem_erase_self pool src hnd⟩
  · unfold Server.serve
    rw [if_pos hmem]
  · unfold Server.serve
    rw [if_neg hnot]
    rcases h1 : Packet.from_bytes .rrq buf with a | e | _ <;> simp [h1]
    rcases h2 : Packet.from_bytes .wrq buf with a | e | _ <;> simp [h2]

/-- The receive script delivering one well-formed `Data` packet per
`(block, payload)` pair. -/
def dataEvents (l : List (Nat × List Nat)) : List (Except IoErr (List Nat)) :=
  l.map (fun x => .ok ((Packet.data x.1 x.2).into_bytes))

/-- The trace of `Ack` packets answering the `(block, payload)` pairs. -/
def ackTrace (l : List (Nat × List Nat)) : List (List Nat) :=
  l.map (fun x => (Packet.ack x.1).into_bytes)

/-- The payloads of the pairs, concatenated in arrival order. -/
def payloadConcat (l : List (Nat × List Nat)) : List Nat :=
  (l.map Prod.snd).flatten

/-- A clean receive run: every block of 512 bytes is written and acked in
order, and the run returns the accumulated writer as soon as the final
short payload arrives. -/
theorem getLoop_clean_run (c : Connection) (init : List (Nat × List Nat))
    (b : Nat) (p : List Nat)
    (hinit : ∀ x ∈ init, x.1 < 65536 ∧ x.2.length = MAX_PAYLOAD_SIZE)
    (hb : b < 65536) (hp : p.length < MAX_PAYLOAD_SIZE) :
    ∀ (lb : Option Nat) (r : Nat) (acc : List Nat) (sent : List (List Nat)),
    Connection.getLoop c (dataEvents (init ++ [(b, p)]))
        (List.replicate (init.length + 1) none) lb r acc sent =
      some (sent ++ ackTrace (init ++ [(b, p)]),
        .ok (acc ++ payloadConcat (init ++ [(b, p)]))) := by
  induction init with
  | nil =>
    intro lb r acc sent
    unfold Connection.getLoop
    simp [dataEvents, ackTrace, payloadConcat, expect_data_ok b hb,
      data_payload, data_block, hp]
  | cons hd tl ih =>
    intro lb r acc sent
    obtain ⟨b0, p0⟩ := hd
    have h0 := hinit (b0, p0) (by simp)
    have h02 : p0.length = MAX_PAYLOAD_SIZE := h0.2
    have hnot : ¬p0.length < MAX_PAYLOAD_SIZE := by omega
    have htl : ∀ x ∈ tl, x.1 < 65536 ∧ x.2.length = MAX_PAYLOAD_SIZE :=
      fun x hx => hinit x (by simp [hx])
    have ihx := ih htl (some b0) 0 (acc ++ p0)
      (sent ++ [(Packet.ack b0).into_bytes])
    unfold Connection.getLoop
    simp only [dataEvents, List.cons_append, List.map_cons, List.length_cons,
      List.replicate_succ]
    simp [expect_data_ok b0 h0.1, data_payload, data_block, hnot]
    rw [List.replicate_succ] at ihx
    simp [dataEvents] at ihx
    rw [ihx]
    simp [ackTrace, payloadConcat]

/-- A receive run can only return the writer when some received datagram
decoded to a `Data` packet with a payload shorter than 512 bytes, and that
payload is the suffix of the returned writer. -/
theorem getLoop_ok_last_short (c : Connection) :
    ∀ (script : List (Except IoErr (List Nat))) (ws : List (Option IoErr))
      (lb : Option Nat) (r : Nat) (acc : List Nat) (sent s : List (List Nat))
      (w : List Nat),
    Connection.getLoop c script ws lb r acc sent = some (s, .ok w) →
    ∃ ev ∈ script, ∃ bytes, ∃ d : Packet .data, ev = .ok bytes ∧
      (expect_packet .data bytes).2 = .ok d ∧
      d.body.data.length < MAX_PAYLOAD_SIZE ∧ ∃ pre, w = pre ++ d.body.data := by
  intro script
  induction script with
  | nil =>
    intro ws lb r acc sent s w h
    exact absurd h (by simp [Connection.getLoop])
  | cons ev script ih =>
    intro ws lb r acc sent s w h
    cases ev with
    | error e =>
      cases lb with
      | none =>
        simp only [Connection.getLoop] at h
        simp at h
      | some lbv =>
        simp only [Connection.getLoop] at h
        rcases hc : c.check_retransmission e r with ⟨s1, res⟩
        rw [hc] at h
        cases res with
        | error e2 => simp at h
        | ok r2 =>
          simp only [] at h
          obtain ⟨ev2, hev2, rest⟩ := ih _ _ _ _ _ _ _ h
          exact ⟨ev2, List.mem_cons_of_mem _ hev2, rest⟩
    | ok bytes =>
      simp only [Connection.getLoop] at h
      rcases hx : expect_packet .data bytes with ⟨s1, res⟩
      rw [hx] at h
      cases res with
      | panic => simp at h
      | err e2 => simp at h
      | ok d =>
        simp only [] at h
        cases ws with
        | nil => simp at h
        | cons wev ws2 =>
          cases wev with
          | some werr => simp at h
          | none =>
            simp only [] at h
            by_cases hlen : d.body.data.length < MAX_PAYLOAD_SIZE
            · rw [if_pos hlen] at h
              injection h with h2
              injection h2 with h3 h4
              injection h4 with h5
              exact ⟨.ok bytes, by simp, bytes, d, rfl,
                by rw [hx], hlen, acc, h5.symm⟩
            · rw [if_neg hlen] at h
              obtain ⟨ev2, hev2, rest⟩ := ih _ _ _ _ _ _ _ h
              exact ⟨ev2, List.mem_cons_of_mem _ hev2, rest⟩

/-- C4: `Connection::get` writes every received `Data` payload to the
writer in arrival order, sends `Ack(data.block)` after each successful
write (the sent trace lists the acks in arrival order), and returns the
writer exactly when the last written payload is shorter than 512 bytes: a
clean run over blocks of 512 bytes followed by one short block returns the
concatenated payloads, a successful return is only possible when some
received datagram decoded to a short `Data` payload ending the writer, and
a receive error (in particular a timeout) arriving while `last_block` is
still `None` — before the first Ack was sent — surfaces the error with
nothing sent and no retransmission. -/
theorem c4_connection_get (c : Connection) :
    (∀ (init : List (Nat × List Nat)) (b : Nat) (p : List Nat),
      (∀ x ∈ init, x.1 < 65536 ∧ x.2.length = MAX_PAYLOAD_SIZE) →
      b < 65536 → p.length < MAX_PAYLOAD_SIZE →
      ∀ lb r acc sent,
      Connection.getLoop c (dataEvents (init ++ [(b, p)]))
          (List.replicate (init.length + 1) none) lb r acc sent =
        some (sent ++ ackTrace (init ++ [(b, p)]),
          .ok (acc ++ payloadConcat (init ++ [(b, p)])))) ∧
    (∀ (e : IoErr) script ws r acc sent,
      Connection.getLoop c (.error e :: script) ws none r acc sent =
        some (sent, .err e)) ∧
    (∀ script ws lb r acc sent s w,
      Connection.getLoop c script ws lb r acc sent = some (s, .ok w) →
      ∃ ev ∈ script, ∃ bytes, ∃ d : Packet .data, ev = .ok bytes ∧
        (expect_packet .data bytes).2 = .ok d ∧
        d.body.data.length < MAX_PAYLOAD_SIZE ∧ ∃ pre, w = pre ++ d.body.data) := by
  refine ⟨fun init b p hinit hb hp => getLoop_clean_run c init b p hinit hb hp,
    fun e script ws r acc sent => ?_,
    fun script ws lb r acc sent s w h => getLoop_ok_last_short c script ws lb r acc sent s w h⟩
  unfold Connection.getLoop
  rfl

/-- C4 witness: a concrete clean run (one 512-byte block, then a 1-byte
block) and a concrete timeout before the first Ack. -/
theorem c4_connection_get_witness :
    ((∀ x ∈ [((1 : Nat), List.replicate 512 (7 : Nat))],
        x.1 < 65536 ∧ x.2.length = MAX_PAYLOAD_SIZE) ∧
      (2 : Nat) < 65536 ∧ ([9] : List Nat).length < MAX_PAYLOAD_SIZE) ∧
    Connection.getLoop ⟨some 3⟩
        (dataEvents [(1, List.replicate 512 7), (2, [9])]) [none, none]
        none 0 [] [] =
      some ([(Packet.ack 1).into_bytes, (Packet.ack 2).into_bytes],
        .ok (List.replicate 512 7 ++ [9])) ∧
    Connection.getLoop ⟨some 3⟩ [.error ⟨.timedOut, []⟩] [] none 0 [] [] =
      some ([], .err ⟨.timedOut, []⟩) := by
  have hinit : ∀ x ∈ [((1 : Nat), List.replicate 512 (7 : Nat))],
      x.1 < 65536 ∧ x.2.length = MAX_PAYLOAD_SIZE := by
    intro x hx
    rw [List.mem_singleton] at hx
    subst hx
    exact ⟨by decide, by rw [List.length_replicate]; rfl⟩
  refine ⟨⟨hinit, by decide, by decide⟩, ?_, ?_⟩
  · have h := (c4_connection_get ⟨some 3⟩).1 [(1, List.replicate 512 7)] 2 [9]
      hinit (by decide) (by decide) none 0 [] []
    simpa only [ackTrace, payloadConcat, List.map_cons, List.map_nil,
      List.flatten_cons, List.flatten_nil, List.append_nil, List.nil_append,
      List.cons_append, List.length_cons, List.length_nil] using h
  · exact (c4_connection_get ⟨some 3⟩).2.1 ⟨.timedOut, []⟩ [] [] 0 [] []

/-- Consuming `j` timeouts in the receive loop, while under the budget,
resends the last Ack `j` times and advances the counter by `j`. -/
theorem getLoop_timeouts (N : Nat) (e : IoErr) (he : timeoutKind e) (lb : Nat) :
    ∀ (j r : Nat), r + j ≤ N →
    ∀ (script : List (Except IoErr (List Nat))) (ws : List (Option IoErr))
      (acc : List Nat) (sent : List (List Nat)),
    Connection.getLoop ⟨some N⟩ (List.replicate j (.error e) ++ script) ws
        (some lb) r acc sent =
      Connection.getLoop ⟨some N⟩ script ws (some lb) (r + j) acc
        (sent ++ List.replicate j ((Packet.ack lb).into_bytes)) := by
  intro j
  induction j with
  | zero =>
    intro r hr script ws acc sent
    simp
  | succ j ih =>
    intro r hr script ws acc sent
    rw [List.replicate_succ, List.cons_append]
    have hc := check_ok_some N e r he (by omega)
    conv_lhs => rw [Connection.getLoop]
    simp only [hc]
    rw [ih (r + 1) (by omega)]
    have hr1 : r + 1 + j = r + (j + 1) := by omega
    rw [hr1]
    simp [List.replicate_succ]

/-- Consuming `j` timeouts in the send loop, while under the budget,
resends the current `Data` packet `j` times and advances the counter. -/
theorem putAwaitAck_timeouts (N : Nat) (e : IoErr) (he : timeoutKind e)
    (d : List Nat) :
    ∀ (j r : Nat), r + j ≤ N →
    ∀ (script : List (Except IoErr (List Nat))) (sent : List (List Nat)),
    Connection.putAwaitAck ⟨some N⟩ d (List.replicate j (.error e) ++ script)
        r sent =
      Connection.putAwaitAck ⟨some N⟩ d script (r + j)
        (sent ++ List.replicate j d) := by
  intro j
  induction j with
  | zero =>
    intro r hr script sent
    simp
  | succ j ih =>
    intro r hr script sent
    rw [List.replicate_succ, List.cons_append]
    have hc := check_ok_some N e r he (by omega)
    conv_lhs => rw [Connection.putAwaitAck]
    simp only [hc]
    rw [ih (r + 1) (by omega)]
    have hr1 : r + 1 + j = r + (j + 1) := by omega
    rw [hr1]
    simp [List.replicate_succ]

/-- A timeout arriving with the counter already at the cap makes the send
loop emit the "exceeded max retransmissions" packet after one last resend
of the `Data` packet, surfacing the timeout error. -/
theorem putAwaitAck_exceed (N : Nat) (e : IoErr) (he : timeoutKind e)
    (d : List Nat) (r : Nat) (hr : N ≤ r)
    (script : List (Except IoErr (List Nat))) (sent : List (List Nat)) :
    Connection.putAwaitAck ⟨some N⟩ d (.error e :: script) r sent =
      some (.err e, script, r, sent ++ [d] ++ [exceededBytes]) := by
  have hc := check_exceed N e r he (by omega)
  unfold Connection.putAwaitAck
  simp [hc]

/-- In `Connection::put` the retransmission counter carries over from block
to block: with `Some N`, `j` timeouts on the first block leave only `N - j`
further timeouts of budget, and the transfer fails with the timeout error
as soon as the total exceeds `N`, even though no single block exceeded it. -/
theorem put_total_timeout_budget (N : Nat) (e : IoErr) (he : timeoutKind e)
    (j m cb : Nat) (c1 c2 : List Nat)
    (rs script : List (Except IoErr (List Nat))) (sent : List (List Nat))
    (hcb : cb < 65536) (hj : j ≤ N) (hm : N + 1 ≤ j + m)
    (hc1 : c1.length = MAX_PAYLOAD_SIZE) :
    Connection.putLoop ⟨some N⟩ (.ok c1 :: .ok c2 :: rs)
        (List.replicate j (.error e) ++ [.ok ((Packet.ack cb).into_bytes)] ++
          List.replicate m (.error e) ++ script) cb 0 sent =
      some (sent ++
          List.replicate (j + 1) ((Packet.data cb c1).into_bytes) ++
          List.replicate (N - j + 1)
            ((Packet.data ((cb + 1) % 65536) c2).into_bytes) ++
          [exceededBytes],
        .err e) := by
  obtain ⟨m2, rfl⟩ : ∃ m2, m = (N - j) + (m2 + 1) := ⟨m - (N - j) - 1, by omega⟩
  have hA1 : Connection.putAwaitAck ⟨some N⟩ ((Packet.data cb c1).into_bytes)
      (List.replicate j (.error e) ++ [.ok ((Packet.ack cb).into_bytes)] ++
        List.replicate ((N - j) + (m2 + 1)) (.error e) ++ script) 0 sent =
      some (.ok (Packet.ack cb),
        List.replicate ((N - j) + (m2 + 1)) (.error e) ++ script, j,
        sent ++ List.replicate (j + 1) ((Packet.data cb c1).into_bytes)) := by
    simp only [List.append_assoc, List.singleton_append]
    rw [putAwaitAck_timeouts N e he _ j 0 (by omega)]
    rw [Nat.zero_add]
    rw [Connection.putAwaitAck.eq_def]
    simp [expect_ack_ok cb hcb, List.replicate_succ', List.append_assoc]
  have hA2 : Connection.putAwaitAck ⟨some N⟩
      ((Packet.data ((cb + 1) % 65536) c2).into_bytes)
      (List.replicate ((N - j) + (m2 + 1)) (.error e) ++ script) j
      (sent ++ List.replicate (j + 1) ((Packet.data cb c1).into_bytes)) =
      some (.err e, List.replicate m2 (.error e) ++ script, N,
        sent ++ List.replicate (j + 1) ((Packet.data cb c1).into_bytes) ++
          List.replicate (N - j + 1)
            ((Packet.data ((cb + 1) % 65536) c2).into_bytes) ++
          [exceededBytes]) := by
    rw [List.replicate_add, List.append_assoc]
    rw [putAwaitAck_timeouts N e he _ (N - j) j (by omega)]
    rw [List.replicate_succ, List.cons_append]
    have hjn : j + (N - j) = N := by omega
    rw [hjn]
    rw [putAwaitAck_exceed N e he _ N (le_refl N) _ _]
    simp [List.replicate_succ', List.append_assoc]
  have hnot1 : ¬c1.length < MAX_PAYLOAD_SIZE := by omega
  conv_lhs => rw [Connection.putLoop]
  simp only [hA1]
  simp only [ack_block, ne_eq, not_true_eq_false, if_false, hnot1]
  conv_lhs => rw [Connection.putLoop]
  simp only [hA2]

/-- In `Connection::get` the retransmission counter is reset to 0 after
every acknowledged `Data` packet: with `Some N`, `j ≤ N` timeouts after the
first block and another `k ≤ N` timeouts after the second block still let
the transfer complete, even when `j + k` exceeds `N`. -/
theorem get_per_block_reset (N : Nat) (e : IoErr) (he : timeoutKind e)
    (j k b1 b2 b3 : Nat) (p1 p2 p3 acc : List Nat) (sent : List (List Nat))
    (hj : j ≤ N) (hk : k ≤ N) (hb1 : b1 < 65536) (hb2 : b2 < 65536)
    (hb3 : b3 < 65536) (hp1 : p1.length = MAX_PAYLOAD_SIZE)
    (hp2 : p2.length = MAX_PAYLOAD_SIZE) (hp3 : p3.length < MAX_PAYLOAD_SIZE) :
    Connection.getLoop ⟨some N⟩
        (.ok ((Packet.data b1 p1).into_bytes) ::
          (List.replicate j (.error e) ++
            .ok ((Packet.data b2 p2).into_bytes) ::
              (List.replicate k (.error e) ++
                [.ok ((Packet.data b3 p3).into_bytes)])))
        [none, none, none] none 0 acc sent =
      some (sent ++ (Packet.ack b1).into_bytes ::
          (List.replicate j ((Packet.ack b1).into_bytes) ++
            (Packet.ack b2).into_bytes ::
              (List.replicate k ((Packet.ack b2).into_bytes) ++
                [(Packet.ack b3).into_bytes])),
        .ok (acc ++ (p1 ++ (p2 ++ p3)))) := by
  have hnot1 : ¬p1.length < MAX_PAYLOAD_SIZE := by omega
  have hnot2 : ¬p2.length < MAX_PAYLOAD_SIZE := by omega
  conv_lhs => rw [Connection.getLoop]
  simp only [expect_data_ok b1 hb1, data_payload, data_block, hnot1, if_false]
  rw [getLoop_timeouts N e he b1 j 0 (by omega)]
  conv_lhs => rw [Connection.getLoop]
  simp only [expect_data_ok b2 hb2, data_payload, data_block, hnot2, if_false]
  rw [getLoop_timeouts N e he b2 k 0 (by omega)]
  conv_lhs => rw [Connection.getLoop]
  simp only [expect_data_ok b3 hb3, data_payload, data_block, hp3, if_true]
  simp [List.append_assoc]

/-- C10: in `Connection::put` the retransmission counter is initialized
once per transfer and never reset after a block is acknowledged, so
`max_retransmissions = Some N` bounds the total number of timeouts over the
whole transfer (a run whose first block consumed `j ≤ N` timeouts fails
with the timeout error as soon as the running total passes `N`); in
`Connection::get` the counter is reset to 0 after every acknowledged
`Data` packet, so the bound is per block (`j ≤ N` timeouts after block one
and `k ≤ N` after block two still complete, even when `j + k > N`). -/
theorem c10_retry_counter_scope (N : Nat) (e : IoErr) (he : timeoutKind e) :
    (∀ (j m cb : Nat) (c1 c2 : List Nat)
        (rs script : List (Except IoErr (List Nat))) (sent : List (List Nat)),
      cb < 65536 → j ≤ N → N + 1 ≤ j + m → c1.length = MAX_PAYLOAD_SIZE →
      Connection.putLoop ⟨some N⟩ (.ok c1 :: .ok c2 :: rs)
          (List.replicate j (.error e) ++ [.ok ((Packet.ack cb).into_bytes)] ++
            List.replicate m (.error e) ++ script) cb 0 sent =
        some (sent ++
            List.replicate (j + 1) ((Packet.data cb c1).into_bytes) ++
            List.replicate (N - j + 1)
              ((Packet.data ((cb + 1) % 65536) c2).into_bytes) ++
            [exceededBytes],
          .err e)) ∧
    (∀ (j k b1 b2 b3 : Nat) (p1 p2 p3 acc : List Nat) (sent : List (List Nat)),
      j ≤ N → k ≤ N → b1 < 65536 → b2 < 65536 → b3 < 65536 →
      p1.length = MAX_PAYLOAD_SIZE → p2.length = MAX_PAYLOAD_SIZE →
      p3.length < MAX_PAYLOAD_SIZE →
      Connection.getLoop ⟨some N⟩
          (.ok ((Packet.data b1 p1).into_bytes) ::
            (List.replicate j (.error e) ++
              .ok ((Packet.data b2 p2).into_bytes) ::
                (List.replicate k (.error e) ++
                  [.ok ((Packet.data b3 p3).into_bytes)])))
          [none, none, none] none 0 acc sent =
        some (sent ++ (Packet.ack b1).into_bytes ::
            (List.replicate j ((Packet.ack b1).into_bytes) ++
              (Packet.ack b2).into_bytes ::
                (List.replicate k ((Packet.ack b2).into_bytes) ++
                  [(Packet.ack b3).into_bytes])),
          .ok (acc ++ (p1 ++ (p2 ++ p3))))) :=
  ⟨fun j m cb c1 c2 rs script sent hcb hj hm hc1 =>
    put_total_timeout_budget N e he j m cb c1 c2 rs script sent hcb hj hm hc1,
   fun j k b1 b2 b3 p1 p2 p3 acc sent hj hk hb1 hb2 hb3 hp1 hp2 hp3 =>
    get_per_block_reset N e he j k b1 b2 b3 p1 p2 p3 acc sent hj hk hb1 hb2
      hb3 hp1 hp2 hp3⟩

/-- C10 witness: with `Some 1`, a put run with one timeout on block 1 and
one on block 2 fails (total 2 > 1), while a get run of the same shape
completes (each block stays within its own budget of 1). -/
theorem c10_retry_counter_scope_witness :
    timeoutKind ⟨.timedOut, []⟩ ∧
    Connection.putLoop ⟨some 1⟩ [.ok (List.replicate 512 7), .ok [9]]
        [.error ⟨.timedOut, []⟩, .ok ((Packet.ack 1).into_bytes),
          .error ⟨.timedOut, []⟩] 1 0 [] =
      some ([(Packet.data 1 (List.replicate 512 7)).into_bytes,
          (Packet.data 1 (List.replicate 512 7)).into_bytes,
          (Packet.data 2 [9]).into_bytes, exceededBytes],
        .err ⟨.timedOut, []⟩) ∧
    Connection.getLoop ⟨some 1⟩
        [.ok ((Packet.data 1 (List.replicate 512 7)).into_bytes),
          .error ⟨.timedOut, []⟩,
          .ok ((Packet.data 2 (List.replicate 512 8)).into_bytes),
          .error ⟨.timedOut, []⟩,
          .ok ((Packet.data 3 [9]).into_bytes)]
        [none, none, none] none 0 [] [] =
      some ([(Packet.ack 1).into_bytes, (Packet.ack 1).into_bytes,
          (Packet.ack 2).into_bytes, (Packet.ack 2).into_bytes,
          (Packet.ack 3).into_bytes],
        .ok (List.replicate 512 7 ++ (List.replicate 512 8 ++ [9]))) := by
  refine ⟨by decide, ?_, ?_⟩
  · have h := (c10_retry_counter_scope 1 ⟨.timedOut, []⟩ (by decide)).1 1 1 1
      (List.replicate 512 7) [9] [] [] [] (by decide) (by decide) (by decide)
      (by rw [List.length_replicate]; rfl)
    exact h
  · have h := (c10_retry_counter_scope 1 ⟨.timedOut, []⟩ (by decide)).2 1 1 1 2 3
      (List.replicate 512 7) (List.replicate 512 8) [9] [] [] (by decide)
      (by decide) (by decide) (by decide) (by decide)
      (by rw [List.length_replicate]; rfl) (by rw [List.length_replicate]; rfl)
      (by decide)
    exact h

/-- C8 amended witness: concrete pools exercising the rejection branch, the
record-on-receipt branch, and the removal in `Handler::handle`. -/
theorem c8_amended_witness :
    (7 : Nat) ∈ [7, 3] ∧
    Server.serve [7, 3] 7 [0, 1] =
      ([7, 3], [], .err ⟨.addrNotAvailable, strBytes "Client TID taken."⟩) ∧
    (5 : Nat) ∉ [7, 3] ∧ (Server.serve [7, 3] 5 [0, 9]).1 = 5 :: [7, 3] ∧
    ([7, 3] : List Nat).Nodup ∧
    (7 : Nat) ∉ (Handler.handle [7, 3] 7 (.ok ())).1 :=
  ⟨by decide,
   (c8_amended [7, 3] 7 [0, 1] (.ok ())).1 (by decide),
   by decide,
   (c8_amended [7, 3] 5 [0, 9] (.ok ())).2.1 (by decide),
   by decide,
   (c8_amended [7, 3] 7 [0, 1] (.ok ())).2.2.2 (by decide)⟩

end Tftp
